import Mathlib

/-
  Shallow embedding of programs/solana-pool/src/lib.rs.

  Machine integers: u64 fields are modelled as Nat together with wrapping
  helpers wadd64 / wsub64 (release-build two-complement semantics); the
  claims that need freedom from wrapping prove the updates in range under
  the pool invariants.  i64 timestamps and durations are modelled as Int.
  Pubkeys are modelled as Nat identifiers.

  The token program (anchor_spl token::transfer) is an external
  collaborator; one call of TokenTransfer::make is modelled by a
  TransferOutcome record: whether the collaborator returned success, the
  source-account balance observed by the post-transfer reload, and the
  (never re-read) change of the destination balance.

  Each instruction handler is a pure function from its account state and
  inputs to an Outcome: the Except result (errors carry the ErrorCode; an
  error means the transaction aborts, so no state write survives) together
  with the amount passed to the token program, when the call was reached.
-/

deriving instance DecidableEq for Except

namespace SolanaPool

def U64 : Nat := 2 ^ 64

def U128 : Nat := 2 ^ 128

/-- Wrapping 64-bit addition (release-mode `+` on u64). -/
def wadd64 (a b : Nat) : Nat := (a + b) % U64

/-- Wrapping 64-bit subtraction (release-mode `-` on u64), for a b < 2^64. -/
def wsub64 (a b : Nat) : Nat := (a + U64 - b) % U64

/-- Pool account (lib.rs lines 10-27). -/
structure Pool where
  admin : Nat
  bump : Nat
  genesis : Int
  topup_duration : Int
  lockup_duration : Int
  stake_acquired_amount : Nat
  stake_target_amount : Nat
  reward_amount : Nat
  deposited_reward_amount : Nat
  stake_mint : Nat
  stake_vault : Nat
deriving DecidableEq, Repr

/-- Pool::can_topup (lib.rs lines 32-34). -/
def Pool.can_topup (p : Pool) (now : Int) : Bool :=
  now < p.genesis + p.topup_duration

/-- Pool::is_expired (lib.rs lines 36-38). -/
def Pool.is_expired (p : Pool) (now : Int) : Bool :=
  now > p.genesis + p.lockup_duration

/-- Ticket account (lib.rs lines 41-47). -/
structure Ticket where
  authority : Nat
  pool : Nat
  staked_amount : Nat
  bump : Nat
deriving DecidableEq, Repr

/-- ErrorCode (lib.rs lines 60-86).  The last two constructors are not
ErrorCode variants of the source: TokenProgramError models an error
returned by the token-program collaborator itself and propagated by `?`,
RuntimePanic models a runtime abort (division by zero inside the fixed
crate). -/
inductive ErrorCode
| InvalidBump
| InvalidAuthority
| TopupLongerThanLockup
| NotEnoughFunds
| PoolIsLocked
| PoolIsFull
| PoolRewardsAreFull
| PoolIsNotExpired
| PoolIsExpired
| NotEnoughRewards
| InvalidAmountTransferred
| IntegerOverlow
| TokenProgramError
| RuntimePanic
deriving DecidableEq, Repr

/-- Behaviour of one token-program transfer call: whether token::transfer
returned Ok, the source balance observed by self.from.reload(), and the
change applied to the destination balance (which TokenTransfer::make
never reads). -/
structure TransferOutcome where
  success : Bool
  fromAfter : Nat
  destDelta : Int
deriving DecidableEq, Repr

/-- TokenTransfer::make (lib.rs lines 429-462): invoke the collaborator,
re-read the source balance, and require amount_before - amount_after ==
amount (u64 arithmetic on the source side only). -/
def tokenTransferMake (amount fromBefore : Nat) (o : TransferOutcome) :
    Except ErrorCode Unit :=
  if o.success then
    if wsub64 fromBefore o.fromAfter = amount then .ok ()
    else .error .InvalidAmountTransferred
  else .error .TokenProgramError

/-- Result of one instruction handler: the Except result (an error aborts
the transaction, so the accounts keep their previous state) and the amount
passed to the token program when the TokenTransfer call was reached. -/
structure Outcome (α : Type) where
  result : Except ErrorCode α
  transfer : Option Nat
deriving DecidableEq

/-- InitializePoolArgs (lib.rs lines 268-275). -/
structure InitializePoolArgs where
  bump : Nat
  topup_duration : Int
  lockup_duration : Int
  target_amount : Nat
  reward_amount : Nat
deriving DecidableEq, Repr

/-- initialize_pool (lib.rs lines 92-117). -/
def initialize_pool (args : InitializePoolArgs)
    (adminKey stakeMintKey stakeVaultKey : Nat) (now : Int) :
    Except ErrorCode Pool :=
  if args.topup_duration ≤ args.lockup_duration then
    .ok { admin := adminKey
          bump := args.bump
          genesis := now
          topup_duration := args.topup_duration
          lockup_duration := args.lockup_duration
          stake_acquired_amount := 0
          stake_target_amount := args.target_amount
          reward_amount := args.reward_amount
          deposited_reward_amount := 0
          stake_mint := stakeMintKey
          stake_vault := stakeVaultKey }
  else .error .TopupLongerThanLockup

/-- add_stake (lib.rs lines 119-155).  The ticket account carries the
Anchor init constraint, so the handler always writes a fresh ticket whose
staked_amount is the clamped transfer amount. -/
def add_stake (pool : Pool) (poolKey staker : Nat)
    (sourceWalletAmount amount bump : Nat) (now : Int)
    (tr : TransferOutcome) : Outcome (Pool × Ticket) :=
  if amount ≤ sourceWalletAmount then
    if pool.can_topup now then
      let transfer_amount :=
        min amount (wsub64 pool.stake_target_amount pool.stake_acquired_amount)
      if 0 < transfer_amount then
        match tokenTransferMake transfer_amount sourceWalletAmount tr with
        | .error e => ⟨.error e, some transfer_amount⟩
        | .ok () =>
          ⟨.ok ({ pool with
                    stake_acquired_amount :=
                      wadd64 pool.stake_acquired_amount transfer_amount },
                { authority := staker
                  pool := poolKey
                  staked_amount := transfer_amount
                  bump := bump }),
           some transfer_amount⟩
      else ⟨.error .PoolIsFull, none⟩
    else ⟨.error .PoolIsLocked, none⟩
  else ⟨.error .NotEnoughFunds, none⟩

/-- remove_stake (lib.rs lines 157-191).  Returns the updated pool and
the ticket when it stays open, or none when the ticket is closed. -/
def remove_stake (pool : Pool) (ticket : Ticket) (amount : Nat) (now : Int)
    (stakeVaultAmount : Nat) (tr : TransferOutcome) :
    Outcome (Pool × Option Ticket) :=
  if pool.can_topup now then
    let transfer_amount := min amount ticket.staked_amount
    match tokenTransferMake transfer_amount stakeVaultAmount tr with
    | .error e => ⟨.error e, some transfer_amount⟩
    | .ok () =>
      let pool' := { pool with
        stake_acquired_amount :=
          wsub64 pool.stake_acquired_amount transfer_amount }
      let ticket' := { ticket with
        staked_amount := wsub64 ticket.staked_amount transfer_amount }
      ⟨.ok (pool',
            if ticket'.staked_amount = 0 then none else some ticket'),
       some transfer_amount⟩
  else ⟨.error .PoolIsLocked, none⟩

/-- Fixed-point number of the fixed crate type U64F64: 64 integer and 64
fractional bits; raw < 2^128 and the represented value is raw / 2^64. -/
structure U64F64 where
  raw : Nat
deriving DecidableEq, Repr

/-- U64F64::from_num on a u64. -/
def U64F64.from_num (n : Nat) : U64F64 := ⟨(n * U64) % U128⟩

/-- U64F64 division: raw result is (x.raw << 64) / y.raw truncated
(release-mode wrapping on overflow; division by zero is handled by the
caller as a RuntimePanic). -/
def U64F64.div (x y : U64F64) : U64F64 := ⟨(x.raw * U64 / y.raw) % U128⟩

/-- U64F64 multiplication: raw result is (x.raw * y.raw) >> 64 truncated
(release-mode wrapping on overflow). -/
def U64F64.mul (x y : U64F64) : U64F64 := ⟨(x.raw * y.raw / U64) % U128⟩

/-- U64F64 addition (release-mode wrapping on overflow). -/
def U64F64.add (x y : U64F64) : U64F64 := ⟨(x.raw + y.raw) % U128⟩

/-- az::CheckedAs conversion U64F64 -> u64: truncates the fraction and
returns none when the integer part does not fit u64. -/
def U64F64.checked_as_u64 (x : U64F64) : Option Nat :=
  if x.raw / U64 < U64 then some (x.raw / U64) else none

/-- The reward computation of claim_reward (lib.rs lines 202-213):
share = staked / acquired, reward_share = share * reward, transfer
amount = checked u64 cast of staked + reward_share.  A zero divisor makes
the fixed crate panic, modelled as RuntimePanic. -/
def rewardTransferAmount (staked acquired reward : Nat) :
    Except ErrorCode Nat :=
  if acquired = 0 then .error .RuntimePanic
  else
    let s := U64F64.from_num staked
    let a := U64F64.from_num acquired
    let r := U64F64.from_num reward
    let share := s.div a
    let reward_share := share.mul r
    match (s.add reward_share).checked_as_u64 with
    | some n => .ok n
    | none => .error .IntegerOverlow

/-- claim_reward (lib.rs lines 193-232).  The handler never writes any
Pool field; the ticket is closed unconditionally after the transfer, so
the ticket component of a successful result is always none.  The Nat
component is the amount transferred. -/
def claim_reward (pool : Pool) (ticket : Ticket) (now : Int)
    (stakeVaultAmount : Nat) (tr : TransferOutcome) :
    Outcome (Pool × Option Ticket × Nat) :=
  if pool.is_expired now then
    match rewardTransferAmount ticket.staked_amount
        pool.stake_acquired_amount pool.reward_amount with
    | .error e => ⟨.error e, none⟩
    | .ok transfer_amount =>
      match tokenTransferMake transfer_amount stakeVaultAmount tr with
      | .error e => ⟨.error e, some transfer_amount⟩
      | .ok () => ⟨.ok (pool, none, transfer_amount), some transfer_amount⟩
  else ⟨.error .PoolIsNotExpired, none⟩

/-- add_reward (lib.rs lines 234-265). -/
def add_reward (pool : Pool) (sourceWalletAmount amount : Nat) (now : Int)
    (tr : TransferOutcome) : Outcome Pool :=
  let transfer_amount :=
    min (min amount
          (wsub64 pool.reward_amount pool.deposited_reward_amount))
      sourceWalletAmount
  if 0 < transfer_amount then
    if pool.is_expired now then ⟨.error .PoolIsExpired, none⟩
    else
      match tokenTransferMake transfer_amount sourceWalletAmount tr with
      | .error e => ⟨.error e, some transfer_amount⟩
      | .ok () =>
        let pool' := { pool with
          deposited_reward_amount :=
            wadd64 pool.deposited_reward_amount transfer_amount }
        if pool'.deposited_reward_amount ≤ pool.reward_amount then
          ⟨.ok pool', some transfer_amount⟩
        else ⟨.error .PoolRewardsAreFull, some transfer_amount⟩
  else ⟨.error .NotEnoughRewards, none⟩

/-- Global state of one pool: the Pool account together with the list of
its open tickets.  Anchor account allocation guarantees each add_stake
call creates a fresh ticket and closed tickets disappear, so the list
holds exactly the open tickets. -/
def PoolState := Pool × List Ticket

/-- Sum of staked_amount over the open tickets of a pool. -/
def sumStaked (ts : List Ticket) : Nat :=
  (ts.map Ticket.staked_amount).sum

/-- Tags naming the four mutating instruction handlers. -/
inductive OpTag
| addStake
| removeStake
| claimReward
| addReward
deriving DecidableEq, Repr

/-- One successful instruction applied to the global state.  Inputs
(amounts, balances, clock reading, collaborator behaviour) are arbitrary;
a remove_stake or claim_reward acts on one open ticket of the pool. -/
inductive Step : OpTag → PoolState → PoolState → Prop
| add_stake {pool ts poolKey staker src amount bump now tr p' tk tro} :
    add_stake pool poolKey staker src amount bump now tr
      = ⟨.ok (p', tk), tro⟩ →
    Step .addStake (pool, ts) (p', ts ++ [tk])
| remove_stake_keep {pool l tk r amount now vault tr p' tk' tro} :
    remove_stake pool tk amount now vault tr = ⟨.ok (p', some tk'), tro⟩ →
    Step .removeStake (pool, l ++ tk :: r) (p', l ++ tk' :: r)
| remove_stake_close {pool l tk r amount now vault tr p' tro} :
    remove_stake pool tk amount now vault tr = ⟨.ok (p', none), tro⟩ →
    Step .removeStake (pool, l ++ tk :: r) (p', l ++ r)
| claim_reward {pool l tk r now vault tr p' otk amt tro} :
    claim_reward pool tk now vault tr = ⟨.ok (p', otk, amt), tro⟩ →
    Step .claimReward (pool, l ++ tk :: r) (p', l ++ r)
| add_reward {pool ts src amount now tr p' tro} :
    add_reward pool src amount now tr = ⟨.ok p', tro⟩ →
    Step .addReward (pool, ts) (p', ts)

/-- Some successful instruction applied to the global state. -/
def StepAny (s s' : PoolState) : Prop := ∃ tag, Step tag s s'

/-- A state is reachable when it arises from a successful initialize_pool
(with genuine u64 arguments) followed by successful instructions. -/
def Reachable (s : PoolState) : Prop :=
  ∃ args adminKey mintKey vaultKey now p,
    args.target_amount < U64 ∧ args.reward_amount < U64 ∧
    initialize_pool args adminKey mintKey vaultKey now = .ok p ∧
    Relation.ReflTransGen StepAny (p, ([] : List Ticket)) s

/-- All u64-typed Pool counters are in range. -/
def PoolWF (p : Pool) : Prop :=
  p.stake_acquired_amount < U64 ∧ p.stake_target_amount < U64 ∧
  p.reward_amount < U64 ∧ p.deposited_reward_amount < U64

/-- Inductive invariant of the system: counters in range and ordered, the
ticket sum bounded by the acquired counter, and every open ticket with
positive stake. -/
def Inv (s : PoolState) : Prop :=
  PoolWF s.1 ∧
  s.1.stake_acquired_amount ≤ s.1.stake_target_amount ∧
  s.1.deposited_reward_amount ≤ s.1.reward_amount ∧
  sumStaked s.2 ≤ s.1.stake_acquired_amount ∧
  ∀ t ∈ s.2, 0 < t.staked_amount

/-- Concrete initialize_pool arguments used by witnesses. -/
def exArgs : InitializePoolArgs :=
  { bump := 0, topup_duration := 10, lockup_duration := 20,
    target_amount := 100, reward_amount := 50 }

/-- The pool produced by initialize_pool exArgs 7 3 4 0. -/
def exPool0 : Pool :=
  { admin := 7, bump := 0, genesis := 0, topup_duration := 10,
    lockup_duration := 20, stake_acquired_amount := 0,
    stake_target_amount := 100, reward_amount := 50,
    deposited_reward_amount := 0, stake_mint := 3, stake_vault := 4 }

/-- The pool exPool0 after a deposit of 100. -/
def exPool1 : Pool := { exPool0 with stake_acquired_amount := 100 }

/-- The ticket created by that deposit. -/
def exTicket : Ticket :=
  { authority := 2, pool := 1, staked_amount := 100, bump := 0 }

/-- The pool exPool1 after add_reward of 50. -/
def exPool2 : Pool := { exPool1 with deposited_reward_amount := 50 }

/-- Failing input of the reward computation: a full pool at half the u64
range whose true payout 2^64 does not fit u64. -/
def ovPool : Pool :=
  { admin := 7, bump := 0, genesis := 0, topup_duration := 10,
    lockup_duration := 20, stake_acquired_amount := 2 ^ 63,
    stake_target_amount := 2 ^ 63, reward_amount := 2 ^ 63,
    deposited_reward_amount := 0, stake_mint := 3, stake_vault := 4 }

/-- The sole ticket of ovPool. -/
def ovTicket : Ticket :=
  { authority := 2, pool := 1, staked_amount := 2 ^ 63, bump := 0 }

/-- Small pool used by the transfer-guard counterexample. -/
def cgPool : Pool := { exPool0 with stake_acquired_amount := 5 }

/-- Its ticket with 5 staked. -/
def cgTicket : Ticket :=
  { authority := 2, pool := 1, staked_amount := 5, bump := 0 }

/-- Pool used by the arithmetic-range witness: partially filled and still
inside the topup window. -/
def c9Pool : Pool := { exPool0 with stake_acquired_amount := 10 }

/-- Its ticket with 10 staked. -/
def c9Ticket : Ticket :=
  { authority := 2, pool := 1, staked_amount := 10, bump := 0 }

theorem wadd64_eq {a b : Nat} (h : a + b < U64) : wadd64 a b = a + b :=
  Nat.mod_eq_of_lt h

theorem wsub64_eq {a b : Nat} (ha : a < U64) (hb : b ≤ a) :
    wsub64 a b = a - b := by
  have h1 : a + U64 - b = a - b + U64 := by omega
  rw [wsub64, h1, Nat.add_mod_right, Nat.mod_eq_of_lt (by omega)]

theorem sumStaked_nil : sumStaked [] = 0 := rfl

theorem sumStaked_cons (t : Ticket) (ts : List Ticket) :
    sumStaked (t :: ts) = t.staked_amount + sumStaked ts := by
  simp [sumStaked]

theorem sumStaked_append (l r : List Ticket) :
    sumStaked (l ++ r) = sumStaked l + sumStaked r := by
  simp [sumStaked]

theorem staked_le_sumStaked {t : Ticket} {ts : List Ticket} (h : t ∈ ts) :
    t.staked_amount ≤ sumStaked ts := by
  induction ts with
  | nil => cases h
  | cons x xs ih =>
    rw [sumStaked_cons]
    rcases List.mem_cons.1 h with h1 | h1
    · rw [h1]; omega
    · have := ih h1; omega

theorem add_stake_ok {pool : Pool} {poolKey staker src amount bump : Nat}
    {now : Int} {tr : TransferOutcome} {p' : Pool} {tk : Ticket}
    {tro : Option Nat}
    (h : add_stake pool poolKey staker src amount bump now tr
      = ⟨.ok (p', tk), tro⟩) :
    amount ≤ src ∧ pool.can_topup now = true ∧
    0 < min amount
        (wsub64 pool.stake_target_amount pool.stake_acquired_amount) ∧
    tokenTransferMake
        (min amount
          (wsub64 pool.stake_target_amount pool.stake_acquired_amount))
        src tr = .ok () ∧
    p' = { pool with
            stake_acquired_amount :=
              wadd64 pool.stake_acquired_amount
                (min amount
                  (wsub64 pool.stake_target_amount
                    pool.stake_acquired_amount)) } ∧
    tk = ⟨staker, poolKey,
          min amount
            (wsub64 pool.stake_target_amount pool.stake_acquired_amount),
          bump⟩ ∧
    tro = some (min amount
        (wsub64 pool.stake_target_amount pool.stake_acquired_amount)) := by
  unfold add_stake at h
  split at h
  case isFalse => simp at h
  case isTrue h1 =>
    split at h
    case isFalse => simp at h
    case isTrue h2 =>
      dsimp only at h
      split at h
      case isFalse => simp at h
      case isTrue h3 =>
        split at h
        case h_1 e heq => simp at h
        case h_2 heq =>
          simp only [Outcome.mk.injEq, Except.ok.injEq, Prod.mk.injEq] at h
          obtain ⟨⟨hp, htk⟩, htro⟩ := h
          exact ⟨h1, h2, h3, heq, hp.symm, htk.symm, htro.symm⟩

theorem remove_stake_ok {pool : Pool} {ticket : Ticket} {amount : Nat}
    {now : Int} {vault : Nat} {tr : TransferOutcome} {p' : Pool}
    {otk : Option Ticket} {tro : Option Nat}
    (h : remove_stake pool ticket amount now vault tr
      = ⟨.ok (p', otk), tro⟩) :
    pool.can_topup now = true ∧
    tokenTransferMake (min amount ticket.staked_amount) vault tr
      = .ok () ∧
    p' = { pool with
            stake_acquired_amount :=
              wsub64 pool.stake_acquired_amount
                (min amount ticket.staked_amount) } ∧
    otk = (if wsub64 ticket.staked_amount (min amount ticket.staked_amount)
            = 0 then none
          else some { ticket with
            staked_amount :=
              wsub64 ticket.staked_amount
                (min amount ticket.staked_amount) }) ∧
    tro = some (min amount ticket.staked_amount) := by
  unfold remove_stake at h
  split at h
  case isFalse => simp at h
  case isTrue h1 =>
    dsimp only at h
    split at h
    case h_1 e heq => simp at h
    case h_2 heq =>
      simp only [Outcome.mk.injEq, Except.ok.injEq, Prod.mk.injEq] at h
      obtain ⟨⟨hp, hot⟩, htro⟩ := h
      exact ⟨h1, heq, hp.symm, hot.symm, htro.symm⟩

theorem claim_reward_ok {pool : Pool} {ticket : Ticket} {now : Int}
    {vault : Nat} {tr : TransferOutcome} {p' : Pool} {otk : Option Ticket}
    {amt : Nat} {tro : Option Nat}
    (h : claim_reward pool ticket now vault tr
      = ⟨.ok (p', otk, amt), tro⟩) :
    pool.is_expired now = true ∧
    rewardTransferAmount ticket.staked_amount pool.stake_acquired_amount
      pool.reward_amount = .ok amt ∧
    tokenTransferMake amt vault tr = .ok () ∧
    p' = pool ∧ otk = none ∧ tro = some amt := by
  unfold claim_reward at h
  split at h
  case isFalse => exact absurd h (by simp)
  case isTrue h1 =>
    split at h
    case h_1 e heq => exact absurd h (by simp)
    case h_2 n heq =>
      split at h
      case h_1 e heq2 => exact absurd h (by simp)
      case h_2 heq2 =>
        simp only [Outcome.mk.injEq, Except.ok.injEq, Prod.mk.injEq] at h
        obtain ⟨⟨hp, hot, hamt⟩, htro⟩ := h
        subst hamt
        exact ⟨h1, heq, heq2, hp.symm, hot.symm, htro.symm⟩

theorem add_reward_ok {pool : Pool} {src amount : Nat} {now : Int}
    {tr : TransferOutcome} {p' : Pool} {tro : Option Nat}
    (h : add_reward pool src amount now tr = ⟨.ok p', tro⟩) :
    0 < min (min amount
        (wsub64 pool.reward_amount pool.deposited_reward_amount)) src ∧
    pool.is_expired now = false ∧
    tokenTransferMake
        (min (min amount
          (wsub64 pool.reward_amount pool.deposited_reward_amount)) src)
        src tr = .ok () ∧
    p' = { pool with
            deposited_reward_amount :=
              wadd64 pool.deposited_reward_amount
                (min (min amount
                  (wsub64 pool.reward_amount
                    pool.deposited_reward_amount)) src) } ∧
    p'.deposited_reward_amount ≤ pool.reward_amount ∧
    tro = some (min (min amount
        (wsub64 pool.reward_amount pool.deposited_reward_amount)) src) := by
  unfold add_reward at h
  dsimp only at h
  split at h
  case isFalse => simp at h
  case isTrue h1 =>
    split at h
    case isTrue h2 => simp at h
    case isFalse h2 =>
      split at h
      case h_1 e heq => simp at h
      case h_2 heq =>
        split at h
        case isFalse h3 => simp at h
        case isTrue h3 =>
          simp only [Outcome.mk.injEq, Except.ok.injEq] at h
          obtain ⟨hp, htro⟩ := h
          refine ⟨h1, by simp [h2], heq, hp.symm, ?_, htro.symm⟩
          rw [← hp]
          exact h3

theorem inv_init {args : InitializePoolArgs} {adminKey mintKey vaultKey : Nat}
    {now : Int} {p : Pool}
    (ht : args.target_amount < U64) (hr : args.reward_amount < U64)
    (h : initialize_pool args adminKey mintKey vaultKey now = .ok p) :
    Inv (p, ([] : List Ticket)) := by
  unfold initialize_pool at h
  split at h
  case isFalse => simp at h
  case isTrue h1 =>
    simp only [Except.ok.injEq] at h
    subst h
    refine ⟨⟨?_, ?_, ?_, ?_⟩, ?_, ?_, ?_, ?_⟩
    · exact (by decide : (0 : Nat) < U64)
    · exact ht
    · exact hr
    · exact (by decide : (0 : Nat) < U64)
    · exact Nat.zero_le _
    · exact Nat.zero_le _
    · exact Nat.le.refl
    · intro t hmem
      cases hmem

theorem inv_step {s s' : PoolState} (hs : Inv s) (h : StepAny s s') :
    Inv s' := by
  obtain ⟨tag, hstep⟩ := h
  obtain ⟨⟨hA, hT, hR, hD⟩, hat, hdr, hsum, hpos⟩ := hs
  cases hstep with
  | @add_stake pool ts poolKey staker src amount bump now tr p' tk tro heq =>
    dsimp only at hA hT hR hD hat hdr hsum hpos
    obtain ⟨h1, h2, h3, h4, hp, htk, htro⟩ := add_stake_ok heq
    have hw : wsub64 pool.stake_target_amount pool.stake_acquired_amount
        = pool.stake_target_amount - pool.stake_acquired_amount :=
      wsub64_eq hT hat
    rw [hw] at h3 hp htk
    have htle : min amount
        (pool.stake_target_amount - pool.stake_acquired_amount)
        ≤ pool.stake_target_amount - pool.stake_acquired_amount :=
      min_le_right _ _
    have hadd : wadd64 pool.stake_acquired_amount
        (min amount (pool.stake_target_amount - pool.stake_acquired_amount))
        = pool.stake_acquired_amount +
          min amount (pool.stake_target_amount - pool.stake_acquired_amount) :=
      wadd64_eq (by omega)
    rw [hadd] at hp
    subst hp
    refine ⟨⟨by simp; omega, hT, hR, hD⟩, by simp; omega, hdr, ?_, ?_⟩
    · simp only [sumStaked_append, sumStaked_cons, sumStaked_nil]
      rw [htk]
      simp
      omega
    · intro x hmem
      rcases List.mem_append.1 hmem with h5 | h5
      · exact hpos x h5
      · rcases List.mem_singleton.1 h5 with h6
        rw [h6, htk]
        exact h3
  | @remove_stake_keep pool l tk r amount now vault tr p' tk' tro heq =>
    dsimp only at hA hT hR hD hat hdr hsum hpos
    obtain ⟨h1, h2, hp, hot, htro⟩ := remove_stake_ok heq
    have hmem : tk ∈ l ++ tk :: r := by simp
    have hstk : tk.staked_amount ≤ sumStaked (l ++ tk :: r) :=
      staked_le_sumStaked hmem
    have htle : min amount tk.staked_amount ≤ tk.staked_amount :=
      min_le_right _ _
    have hstkU : tk.staked_amount < U64 := by omega
    have hws : wsub64 tk.staked_amount (min amount tk.staked_amount)
        = tk.staked_amount - min amount tk.staked_amount :=
      wsub64_eq hstkU htle
    have hwa : wsub64 pool.stake_acquired_amount
        (min amount tk.staked_amount)
        = pool.stake_acquired_amount - min amount tk.staked_amount :=
      wsub64_eq hA (by omega)
    rw [hws] at hot
    rw [hwa] at hp
    subst hp
    rw [sumStaked_append, sumStaked_cons] at hsum
    split at hot
    case isTrue => simp at hot
    case isFalse h3 =>
      simp only [Option.some.injEq] at hot
      subst hot
      refine ⟨⟨by simp; omega, hT, hR, hD⟩, by simp; omega, hdr, ?_, ?_⟩
      · simp only [sumStaked_append, sumStaked_cons]
        omega
      · intro x hmemx
        rcases List.mem_append.1 hmemx with h5 | h5
        · exact hpos x (by simp [h5])
        · rcases List.mem_cons.1 h5 with h6 | h6
          · rw [h6]
            simp
            omega
          · exact hpos x (by simp [h6])
  | @remove_stake_close pool l tk r amount now vault tr p' tro heq =>
    dsimp only at hA hT hR hD hat hdr hsum hpos
    obtain ⟨h1, h2, hp, hot, htro⟩ := remove_stake_ok heq
    have hmem : tk ∈ l ++ tk :: r := by simp
    have hstk : tk.staked_amount ≤ sumStaked (l ++ tk :: r) :=
      staked_le_sumStaked hmem
    have htle : min amount tk.staked_amount ≤ tk.staked_amount :=
      min_le_right _ _
    have hstkU : tk.staked_amount < U64 := by omega
    have hws : wsub64 tk.staked_amount (min amount tk.staked_amount)
        = tk.staked_amount - min amount tk.staked_amount :=
      wsub64_eq hstkU htle
    have hwa : wsub64 pool.stake_acquired_amount
        (min amount tk.staked_amount)
        = pool.stake_acquired_amount - min amount tk.staked_amount :=
      wsub64_eq hA (by omega)
    rw [hws] at hot
    rw [hwa] at hp
    subst hp
    rw [sumStaked_append, sumStaked_cons] at hsum
    split at hot
    case isFalse h3 => simp at hot
    case isTrue h3 =>
      have ht4 : min amount tk.staked_amount = tk.staked_amount := by omega
      refine ⟨⟨by simp; omega, hT, hR, hD⟩, by simp; omega, hdr, ?_, ?_⟩
      · rw [sumStaked_append]
        simp
        omega
      · intro x hmemx
        rcases List.mem_append.1 hmemx with h5 | h5
        · exact hpos x (by simp [h5])
        · exact hpos x (by simp [h5])
  | @claim_reward pool l tk r now vault tr p' otk amt tro heq =>
    dsimp only at hA hT hR hD hat hdr hsum hpos
    obtain ⟨h1, h2, h3, hp, hot, htro⟩ := claim_reward_ok heq
    subst hp
    have hmem : tk ∈ l ++ tk :: r := by simp
    have hstk : tk.staked_amount ≤ sumStaked (l ++ tk :: r) :=
      staked_le_sumStaked hmem
    rw [sumStaked_append, sumStaked_cons] at hsum
    refine ⟨⟨hA, hT, hR, hD⟩, hat, hdr, ?_, ?_⟩
    · dsimp only
      rw [sumStaked_append]
      omega
    · intro x hmemx
      rcases List.mem_append.1 hmemx with h5 | h5
      · exact hpos x (by simp [h5])
      · exact hpos x (by simp [h5])
  | @add_reward pool ts src amount now tr p' tro heq =>
    dsimp only at hA hT hR hD hat hdr hsum hpos
    obtain ⟨h1, h2, h3, hp, hle, htro⟩ := add_reward_ok heq
    have hD2 : p'.deposited_reward_amount < U64 := by omega
    refine ⟨⟨?_, ?_, ?_, hD2⟩, ?_, ?_, ?_, hpos⟩
    · rw [hp]; exact hA
    · rw [hp]; exact hT
    · rw [hp]; exact hR
    · rw [hp]; simpa using hat
    · dsimp only
      have h5 : p'.reward_amount = pool.reward_amount := by rw [hp]
      omega
    · rw [hp]; simpa using hsum

theorem reachable_inv {s : PoolState} (h : Reachable s) : Inv s := by
  obtain ⟨args, a, m, v, now, p, ht, hr, hinit, hsteps⟩ := h
  induction hsteps with
  | refl => exact inv_init ht hr hinit
  | tail _ hstep ih => exact inv_step ih hstep

theorem sum_eq_step {s s' : PoolState} {tag : OpTag}
    (hs : Inv s) (htag : tag ≠ OpTag.claimReward) (hstep : Step tag s s')
    (heqs : sumStaked s.2 = s.1.stake_acquired_amount) :
    sumStaked s'.2 = s'.1.stake_acquired_amount := by
  obtain ⟨⟨hA, hT, hR, hD⟩, hat, hdr, hsum, hpos⟩ := hs
  cases hstep with
  | @add_stake pool ts poolKey staker src amount bump now tr p' tk tro heq =>
    dsimp only at hA hT hR hD hat hdr hsum hpos heqs ⊢
    obtain ⟨h1, h2, h3, h4, hp, htk, htro⟩ := add_stake_ok heq
    have hw : wsub64 pool.stake_target_amount pool.stake_acquired_amount
        = pool.stake_target_amount - pool.stake_acquired_amount :=
      wsub64_eq hT hat
    rw [hw] at hp htk
    have htle : min amount
        (pool.stake_target_amount - pool.stake_acquired_amount)
        ≤ pool.stake_target_amount - pool.stake_acquired_amount :=
      min_le_right _ _
    have hadd : wadd64 pool.stake_acquired_amount
        (min amount (pool.stake_target_amount - pool.stake_acquired_amount))
        = pool.stake_acquired_amount +
          min amount (pool.stake_target_amount - pool.stake_acquired_amount) :=
      wadd64_eq (by omega)
    rw [hadd] at hp
    subst hp
    rw [sumStaked_append, sumStaked_cons, sumStaked_nil, htk]
    simp
    omega
  | @remove_stake_keep pool l tk r amount now vault tr p' tk' tro heq =>
    dsimp only at hA hT hR hD hat hdr hsum hpos heqs ⊢
    obtain ⟨h1, h2, hp, hot, htro⟩ := remove_stake_ok heq
    have hmem : tk ∈ l ++ tk :: r := by simp
    have hstk : tk.staked_amount ≤ sumStaked (l ++ tk :: r) :=
      staked_le_sumStaked hmem
    have htle : min amount tk.staked_amount ≤ tk.staked_amount :=
      min_le_right _ _
    have hstkU : tk.staked_amount < U64 := by omega
    have hws : wsub64 tk.staked_amount (min amount tk.staked_amount)
        = tk.staked_amount - min amount tk.staked_amount :=
      wsub64_eq hstkU htle
    have hwa : wsub64 pool.stake_acquired_amount
        (min amount tk.staked_amount)
        = pool.stake_acquired_amount - min amount tk.staked_amount :=
      wsub64_eq hA (by omega)
    rw [hws] at hot
    rw [hwa] at hp
    subst hp
    rw [sumStaked_append, sumStaked_cons] at heqs
    split at hot
    case isTrue => simp at hot
    case isFalse h3 =>
      simp only [Option.some.injEq] at hot
      subst hot
      simp only [sumStaked_append, sumStaked_cons]
      omega
  | @remove_stake_close pool l tk r amount now vault tr p' tro heq =>
    dsimp only at hA hT hR hD hat hdr hsum hpos heqs ⊢
    obtain ⟨h1, h2, hp, hot, htro⟩ := remove_stake_ok heq
    have hmem : tk ∈ l ++ tk :: r := by simp
    have hstk : tk.staked_amount ≤ sumStaked (l ++ tk :: r) :=
      staked_le_sumStaked hmem
    have htle : min amount tk.staked_amount ≤ tk.staked_amount :=
      min_le_right _ _
    have hstkU : tk.staked_amount < U64 := by omega
    have hws : wsub64 tk.staked_amount (min amount tk.staked_amount)
        = tk.staked_amount - min amount tk.staked_amount :=
      wsub64_eq hstkU htle
    have hwa : wsub64 pool.stake_acquired_amount
        (min amount tk.staked_amount)
        = pool.stake_acquired_amount - min amount tk.staked_amount :=
      wsub64_eq hA (by omega)
    rw [hws] at hot
    rw [hwa] at hp
    subst hp
    rw [sumStaked_append, sumStaked_cons] at heqs
    split at hot
    case isFalse h3 => simp at hot
    case isTrue h3 =>
      rw [sumStaked_append]
      simp
      omega
  | @claim_reward pool l tk r now vault tr p' otk amt tro heq =>
    exact absurd rfl htag
  | @add_reward pool ts src amount now tr p' tro heq =>
    dsimp only at hA hT hR hD hat hdr hsum hpos heqs ⊢
    obtain ⟨h1, h2, h3, hp, hle, htro⟩ := add_reward_ok heq
    have h5 : p'.stake_acquired_amount = pool.stake_acquired_amount := by
      rw [hp]
    rw [h5]
    exact heqs

theorem ex_step_add_stake :
    Step OpTag.addStake (exPool0, ([] : List Ticket)) (exPool1, [exTicket]) :=
  @Step.add_stake exPool0 [] 1 2 100 100 0 5 ⟨true, 0, 0⟩ exPool1 exTicket
    (some 100) (by decide)

theorem ex_step_claim :
    Step OpTag.claimReward (exPool1, [exTicket])
      (exPool1, ([] : List Ticket)) :=
  @Step.claim_reward exPool1 [] exTicket [] 21 150 ⟨true, 0, 0⟩ exPool1
    none 150 (some 150) (by decide)

theorem ex_step_add_reward :
    Step OpTag.addReward (exPool1, [exTicket]) (exPool2, [exTicket]) :=
  @Step.add_reward exPool1 [exTicket] 50 50 5 ⟨true, 0, 0⟩ exPool2
    (some 50) (by decide)

theorem ex_reach1 : Reachable (exPool1, [exTicket]) :=
  ⟨exArgs, 7, 3, 4, 0, exPool0, by decide, by decide, by decide,
    Relation.ReflTransGen.tail Relation.ReflTransGen.refl
      ⟨OpTag.addStake, ex_step_add_stake⟩⟩

theorem ex_reach2 : Reachable (exPool1, ([] : List Ticket)) :=
  ⟨exArgs, 7, 3, 4, 0, exPool0, by decide, by decide, by decide,
    Relation.ReflTransGen.tail
      (Relation.ReflTransGen.tail Relation.ReflTransGen.refl
        ⟨OpTag.addStake, ex_step_add_stake⟩)
      ⟨OpTag.claimReward, ex_step_claim⟩⟩

/-- C1 counterexample: the state reached by initialize, a deposit of 100
and a successful claim is reachable, yet the sum of staked amounts over
its open tickets (zero, the ticket was closed by the claim) differs from
stakeAcquiredAmount (still 100, claim_reward never decrements it).  This
refutes both halves of the claim: the equality fails in a reachable state
and claim_reward does not preserve it. -/
theorem c1_sum_invariant_counterexample :
    Reachable (exPool1, ([] : List Ticket)) ∧
    sumStaked ([] : List Ticket) ≠ exPool1.stake_acquired_amount :=
  ⟨ex_reach2, by decide⟩

/-- C1 (amended): in every reachable state the sum of stakedAmount over
the open tickets of the pool is at most stakeAcquiredAmount, and the
equality of the two is preserved by add_stake, remove_stake and
add_reward; claim_reward instead closes the ticket without decrementing
stakeAcquiredAmount, so after the first successful claim only the
inequality survives. -/
theorem c1_sum_invariant (s s' : PoolState) (tag : OpTag)
    (hr : Reachable s) :
    sumStaked s.2 ≤ s.1.stake_acquired_amount ∧
    (tag ≠ OpTag.claimReward → Step tag s s' →
      sumStaked s.2 = s.1.stake_acquired_amount →
      sumStaked s'.2 = s'.1.stake_acquired_amount) := by
  have hinv := reachable_inv hr
  exact ⟨hinv.2.2.2.1,
    fun htag hstep heq => sum_eq_step hinv htag hstep heq⟩

/-- Witness for C1 at the concrete reachable state after one deposit,
stepping by add_reward. -/
theorem c1_sum_invariant_witness :
    sumStaked [exTicket] ≤ exPool1.stake_acquired_amount ∧
    sumStaked [exTicket] = exPool2.stake_acquired_amount := by
  have h := c1_sum_invariant (exPool1, [exTicket]) (exPool2, [exTicket])
    OpTag.addReward ex_reach1
  exact ⟨h.1, h.2 (by decide) ex_step_add_reward (by decide)⟩

/-- C2: a successful deposit clamps the transferred amount to
min(requested, stakeTargetAmount - stakeAcquiredAmount), adds it to the
pool counter and creates the fresh ticket with exactly that staked
amount. -/
theorem c2_add_stake_effect (pool : Pool)
    (poolKey staker src amount bump : Nat) (now : Int)
    (tr : TransferOutcome) (p' : Pool) (tk : Ticket) (tro : Option Nat)
    (hT : pool.stake_target_amount < U64)
    (hat : pool.stake_acquired_amount ≤ pool.stake_target_amount)
    (h : add_stake pool poolKey staker src amount bump now tr
      = ⟨.ok (p', tk), tro⟩) :
    tro = some (min amount
      (pool.stake_target_amount - pool.stake_acquired_amount)) ∧
    p'.stake_acquired_amount = pool.stake_acquired_amount +
      min amount (pool.stake_target_amount - pool.stake_acquired_amount) ∧
    tk.staked_amount = min amount
      (pool.stake_target_amount - pool.stake_acquired_amount) := by
  obtain ⟨h1, h2, h3, h4, hp, htk, htro⟩ := add_stake_ok h
  have hw : wsub64 pool.stake_target_amount pool.stake_acquired_amount
      = pool.stake_target_amount - pool.stake_acquired_amount :=
    wsub64_eq hT hat
  rw [hw] at hp htk htro
  have htle : min amount
      (pool.stake_target_amount - pool.stake_acquired_amount)
      ≤ pool.stake_target_amount - pool.stake_acquired_amount :=
    min_le_right _ _
  have hadd : wadd64 pool.stake_acquired_amount
      (min amount (pool.stake_target_amount - pool.stake_acquired_amount))
      = pool.stake_acquired_amount +
        min amount (pool.stake_target_amount - pool.stake_acquired_amount) :=
    wadd64_eq (by omega)
  refine ⟨htro, ?_, ?_⟩
  · rw [hp]
    dsimp only
    exact hadd
  · rw [htk]

/-- Witness for C2 at the concrete deposit of 100 into the fresh pool. -/
theorem c2_add_stake_effect_witness :
    (some 100 : Option Nat) = some (min 100
      (exPool0.stake_target_amount - exPool0.stake_acquired_amount)) ∧
    exPool1.stake_acquired_amount = exPool0.stake_acquired_amount +
      min 100 (exPool0.stake_target_amount - exPool0.stake_acquired_amount) ∧
    exTicket.staked_amount = min 100
      (exPool0.stake_target_amount - exPool0.stake_acquired_amount) :=
  c2_add_stake_effect exPool0 1 2 100 100 0 5 ⟨true, 0, 0⟩ exPool1 exTicket
    (some 100) (by decide) (by decide) (by decide)

/-- C3 (code bug): at the failing input staked = acquired = reward = 2^63
the expired-pool claim has true payout 2^63 + 2^63 = 2^64, which does not
fit u64, yet the handler does not fail with IntegerOverlow: the unchecked
U64F64 addition wraps (its raw sum is exactly 2^128) and the claim
succeeds transferring 0.  The checked u64 cast guarding the result can
never fire, because the integer part of any U64F64 value already fits
u64. -/
theorem c3_reward_overflow_bug :
    claim_reward ovPool ovTicket 21 0 ⟨true, 0, 0⟩
      = ⟨.ok (ovPool, none, 0), some 0⟩ ∧
    U64 - 1 < ovTicket.staked_amount +
      ovTicket.staked_amount * ovPool.reward_amount /
        ovPool.stake_acquired_amount ∧
    ovPool.is_expired 21 = true ∧ 0 < ovPool.stake_acquired_amount :=
  ⟨by decide, by decide, by decide, by decide⟩

/-- C4: every reachable pool state satisfies
stakeAcquiredAmount at most stakeTargetAmount and depositedRewardAmount
at most rewardAmount (the lower bounds are inherent to the Nat model of
u64), and every successful instruction preserves both bounds. -/
theorem c4_pool_bounds (s s' : PoolState) (tag : OpTag)
    (hr : Reachable s) :
    (s.1.stake_acquired_amount ≤ s.1.stake_target_amount ∧
      s.1.deposited_reward_amount ≤ s.1.reward_amount) ∧
    (Step tag s s' →
      s'.1.stake_acquired_amount ≤ s'.1.stake_target_amount ∧
      s'.1.deposited_reward_amount ≤ s'.1.reward_amount) := by
  have hinv := reachable_inv hr
  refine ⟨⟨hinv.2.1, hinv.2.2.1⟩, fun hstep => ?_⟩
  have hinv2 := inv_step hinv ⟨tag, hstep⟩
  exact ⟨hinv2.2.1, hinv2.2.2.1⟩

/-- Witness for C4 at the concrete reachable state after one deposit,
stepping by add_reward. -/
theorem c4_pool_bounds_witness :
    (exPool1.stake_acquired_amount ≤ exPool1.stake_target_amount ∧
      exPool1.deposited_reward_amount ≤ exPool1.reward_amount) ∧
    (exPool2.stake_acquired_amount ≤ exPool2.stake_target_amount ∧
      exPool2.deposited_reward_amount ≤ exPool2.reward_amount) := by
  have h := c4_pool_bounds (exPool1, [exTicket]) (exPool2, [exTicket])
    OpTag.addReward ex_reach1
  exact ⟨h.1, h.2 ex_step_add_reward⟩

/-- C5 counterexample: a deposit attempted after the topup window closed
(now = 15, genesis + topupDuration = 10) with a source wallet that cannot
cover the requested amount fails with NotEnoughFunds, not PoolIsLocked:
add_stake checks the source balance before consulting the phase gate. -/
theorem c5_phase_gate_counterexample :
    exPool0.genesis + exPool0.topup_duration ≤ 15 ∧
    add_stake exPool0 1 2 0 5 0 15 ⟨true, 0, 0⟩
      = ⟨.error .NotEnoughFunds, none⟩ ∧
    ErrorCode.NotEnoughFunds ≠ ErrorCode.PoolIsLocked :=
  ⟨by decide, by decide, by decide⟩

/-- C5 (amended): when now is at or past genesis + topupDuration, every
withdrawal fails with PoolIsLocked, and every deposit whose source
balance covers the requested amount fails with PoolIsLocked (a deposit
with insufficient balance fails with NotEnoughFunds instead, since that
check precedes the phase gate); in both cases no token transfer is
invoked, and the error return means the transaction aborts with every
Pool and Ticket field unchanged. -/
theorem c5_phase_gate (pool : Pool) (ticket : Ticket)
    (poolKey staker src amount bump amount2 vault : Nat) (now : Int)
    (tr tr2 : TransferOutcome)
    (hlock : pool.genesis + pool.topup_duration ≤ now)
    (hfund : amount ≤ src) :
    add_stake pool poolKey staker src amount bump now tr
      = ⟨.error .PoolIsLocked, none⟩ ∧
    remove_stake pool ticket amount2 now vault tr2
      = ⟨.error .PoolIsLocked, none⟩ := by
  have hct : pool.can_topup now = false := by
    unfold Pool.can_topup
    simp only [decide_eq_false_iff_not]
    omega
  constructor
  · unfold add_stake
    rw [if_pos hfund, hct]
    simp
  · unfold remove_stake
    rw [hct]
    simp

/-- Witness for C5 on the concrete pool past its topup window. -/
theorem c5_phase_gate_witness :
    add_stake exPool0 1 2 100 5 0 15 ⟨true, 0, 0⟩
      = ⟨.error .PoolIsLocked, none⟩ ∧
    remove_stake exPool0 exTicket 5 15 100 ⟨true, 0, 0⟩
      = ⟨.error .PoolIsLocked, none⟩ :=
  c5_phase_gate exPool0 exTicket 1 2 100 5 0 5 100 15 ⟨true, 0, 0⟩
    ⟨true, 0, 0⟩ (by decide) (by decide)

/-- C6: a successful claim_reward returns the pool it was given: the
handler mutates no Pool field, it only pays out and closes the Ticket. -/
theorem c6_claim_pool_frame (pool : Pool) (ticket : Ticket) (now : Int)
    (vault : Nat) (tr : TransferOutcome) (p' : Pool) (otk : Option Ticket)
    (amt : Nat) (tro : Option Nat)
    (h : claim_reward pool ticket now vault tr = ⟨.ok (p', otk, amt), tro⟩) :
    p' = pool :=
  (claim_reward_ok h).2.2.2.1

/-- Witness for C6 at the concrete claim on the expired example pool. -/
theorem c6_claim_pool_frame_witness : exPool1 = exPool1 :=
  c6_claim_pool_frame exPool1 exTicket 21 150 ⟨true, 0, 0⟩ exPool1 none 150
    (some 150) (by decide)

/-- C7: a successful withdrawal request of 0 leaves the pool counter
unchanged and returns the ticket unchanged (closing it only in the
degenerate case of a zero-staked ticket, which no reachable open ticket
exhibits); a failed request aborts with all state unchanged by the atomic
semantics of the embedding. -/
theorem c7_zero_withdrawal (pool : Pool) (ticket : Ticket) (now : Int)
    (vault : Nat) (tr : TransferOutcome) (p' : Pool) (otk : Option Ticket)
    (tro : Option Nat)
    (hA : pool.stake_acquired_amount < U64)
    (hS : ticket.staked_amount < U64)
    (h : remove_stake pool ticket 0 now vault tr = ⟨.ok (p', otk), tro⟩) :
    p'.stake_acquired_amount = pool.stake_acquired_amount ∧
    otk = (if ticket.staked_amount = 0 then none else some ticket) := by
  obtain ⟨h1, h2, hp, hot, htro⟩ := remove_stake_ok h
  have hm : min 0 ticket.staked_amount = 0 := by simp
  rw [hm] at hp hot
  have hw1 : wsub64 pool.stake_acquired_amount 0
      = pool.stake_acquired_amount := by
    rw [wsub64_eq hA (Nat.zero_le _)]
    omega
  have hw2 : wsub64 ticket.staked_amount 0 = ticket.staked_amount := by
    rw [wsub64_eq hS (Nat.zero_le _)]
    omega
  rw [hw1] at hp
  rw [hw2] at hot
  refine ⟨?_, ?_⟩
  · rw [hp]
  · exact hot

/-- Witness for C7 at a concrete zero withdrawal from the example pool. -/
theorem c7_zero_withdrawal_witness :
    exPool1.stake_acquired_amount = exPool1.stake_acquired_amount ∧
    (some exTicket : Option Ticket)
      = (if exTicket.staked_amount = 0 then none else some exTicket) :=
  c7_zero_withdrawal exPool1 exTicket 5 100 ⟨true, 100, 0⟩ exPool1
    (some exTicket) (some 0) (by decide) (by decide) (by decide)

/-- C8 counterexample: a collaborator that reports success while the
source balance increases from 3 to 2^64 - 2 (an absolute delta of
2^64 - 5, not the requested 5) passes the wrapping guard comparison, and
the withdrawal succeeds and updates the bookkeeping instead of failing
with InvalidAmountTransferred. -/
theorem c8_transfer_guard_counterexample :
    (⟨true, U64 - 2, 0⟩ : TransferOutcome).success = true ∧
    ((U64 - 2 : Int) - 3).natAbs ≠ 5 ∧
    remove_stake cgPool cgTicket 5 0 3 ⟨true, U64 - 2, 0⟩
      = ⟨.ok ({ cgPool with stake_acquired_amount := 0 }, none), some 5⟩ :=
  ⟨rfl, by decide, by decide⟩

/-- C8 (amended): the guard compares the wrapping 64-bit difference
before - after of the source balance against the requested amount, so
whenever the collaborator reports success and the source balance did not
increase, a decrease different from the requested amount makes the guard
fail with InvalidAmountTransferred, and the enclosing operation (shown
for remove_stake with the request already clamped) returns that error
before any bookkeeping write, so no Pool or Ticket field is updated.  A
collaborator that increases the source balance by 2^64 - amount slips
through the wrapping comparison, hence the counterexample. -/
theorem c8_transfer_guard (pool : Pool) (ticket : Ticket)
    (amount fromBefore : Nat) (now : Int) (o : TransferOutcome)
    (hb : fromBefore < U64) (hs : o.success = true)
    (hle : o.fromAfter ≤ fromBefore)
    (hne : fromBefore - o.fromAfter ≠ amount)
    (htu : pool.can_topup now = true)
    (hcl : amount ≤ ticket.staked_amount) :
    tokenTransferMake amount fromBefore o
      = .error .InvalidAmountTransferred ∧
    remove_stake pool ticket amount now fromBefore o
      = ⟨.error .InvalidAmountTransferred, some amount⟩ := by
  have hguard : tokenTransferMake amount fromBefore o
      = .error .InvalidAmountTransferred := by
    unfold tokenTransferMake
    rw [hs, wsub64_eq hb hle]
    simp [hne]
  refine ⟨hguard, ?_⟩
  unfold remove_stake
  rw [htu]
  have hm : min amount ticket.staked_amount = amount := min_eq_left hcl
  simp only [if_true, hm, hguard]

/-- Witness for C8 on a concrete short transfer: requested 4 but the
source balance only fell from 10 to 7. -/
theorem c8_transfer_guard_witness :
    tokenTransferMake 4 10 ⟨true, 7, 0⟩
      = .error .InvalidAmountTransferred ∧
    remove_stake cgPool cgTicket 4 0 10 ⟨true, 7, 0⟩
      = ⟨.error .InvalidAmountTransferred, some 4⟩ :=
  c8_transfer_guard cgPool cgTicket 4 10 0 ⟨true, 7, 0⟩ (by decide) rfl
    (by decide) (by decide) (by decide) (by decide)

/-- C9: under the pool invariants every additive or subtractive update of
stake_acquired_amount, deposited_reward_amount and staked_amount stays
inside the u64 range, so the wrapping release-mode operators coincide
with exact integer arithmetic: the claim holds in its equivalent
no-wrap reading (the source uses unchecked operators and relies on the
runtime, as the spec itself notes). -/
theorem c9_no_wrap (pool : Pool) (ticket : Ticket)
    (poolKey staker src1 amount1 bump : Nat) (now1 : Int)
    (tr1 : TransferOutcome)
    (amount2 vault : Nat) (now2 : Int) (tr2 : TransferOutcome)
    (src3 amount3 : Nat) (now3 : Int) (tr3 : TransferOutcome)
    (p1 : Pool) (tk1 : Ticket) (tro1 : Option Nat)
    (p2 : Pool) (otk2 : Option Ticket) (tro2 : Option Nat)
    (p3 : Pool) (tro3 : Option Nat)
    (hA : pool.stake_acquired_amount < U64)
    (hT : pool.stake_target_amount < U64)
    (hR : pool.reward_amount < U64)
    (hat : pool.stake_acquired_amount ≤ pool.stake_target_amount)
    (hdr : pool.deposited_reward_amount ≤ pool.reward_amount)
    (hts : ticket.staked_amount ≤ pool.stake_acquired_amount)
    (h1 : add_stake pool poolKey staker src1 amount1 bump now1 tr1
      = ⟨.ok (p1, tk1), tro1⟩)
    (h2 : remove_stake pool ticket amount2 now2 vault tr2
      = ⟨.ok (p2, otk2), tro2⟩)
    (h3 : add_reward pool src3 amount3 now3 tr3 = ⟨.ok p3, tro3⟩) :
    (p1.stake_acquired_amount
        = pool.stake_acquired_amount +
          min amount1
            (pool.stake_target_amount - pool.stake_acquired_amount) ∧
      p1.stake_acquired_amount ≤ pool.stake_target_amount) ∧
    (p2.stake_acquired_amount
        = pool.stake_acquired_amount - min amount2 ticket.staked_amount ∧
      min amount2 ticket.staked_amount ≤ pool.stake_acquired_amount ∧
      otk2 = (if ticket.staked_amount - min amount2 ticket.staked_amount = 0
          then none
          else some { ticket with
            staked_amount :=
              ticket.staked_amount - min amount2 ticket.staked_amount })) ∧
    (p3.deposited_reward_amount
        = pool.deposited_reward_amount +
          min (min amount3
            (pool.reward_amount - pool.deposited_reward_amount)) src3 ∧
      p3.deposited_reward_amount ≤ pool.reward_amount) := by
  refine ⟨?_, ?_, ?_⟩
  · obtain ⟨g1, g2, g3, g4, hp, htk, htro⟩ := add_stake_ok h1
    have hw : wsub64 pool.stake_target_amount pool.stake_acquired_amount
        = pool.stake_target_amount - pool.stake_acquired_amount :=
      wsub64_eq hT hat
    rw [hw] at hp
    have htle : min amount1
        (pool.stake_target_amount - pool.stake_acquired_amount)
        ≤ pool.stake_target_amount - pool.stake_acquired_amount :=
      min_le_right _ _
    have hadd : wadd64 pool.stake_acquired_amount
        (min amount1
          (pool.stake_target_amount - pool.stake_acquired_amount))
        = pool.stake_acquired_amount +
          min amount1
            (pool.stake_target_amount - pool.stake_acquired_amount) :=
      wadd64_eq (by omega)
    rw [hadd] at hp
    constructor
    · rw [hp]
    · rw [hp]
      dsimp only
      omega
  · obtain ⟨g1, g2, hp, hot, htro⟩ := remove_stake_ok h2
    have htle : min amount2 ticket.staked_amount ≤ ticket.staked_amount :=
      min_le_right _ _
    have hsU : ticket.staked_amount < U64 := by omega
    have hws : wsub64 ticket.staked_amount
        (min amount2 ticket.staked_amount)
        = ticket.staked_amount - min amount2 ticket.staked_amount :=
      wsub64_eq hsU htle
    have hwa : wsub64 pool.stake_acquired_amount
        (min amount2 ticket.staked_amount)
        = pool.stake_acquired_amount - min amount2 ticket.staked_amount :=
      wsub64_eq hA (by omega)
    rw [hws] at hot
    rw [hwa] at hp
    refine ⟨?_, by omega, ?_⟩
    · rw [hp]
    · exact hot
  · obtain ⟨g1, g2, g3, hp, hle, htro⟩ := add_reward_ok h3
    have hwr : wsub64 pool.reward_amount pool.deposited_reward_amount
        = pool.reward_amount - pool.deposited_reward_amount :=
      wsub64_eq hR hdr
    rw [hwr] at hp
    have htle : min (min amount3
        (pool.reward_amount - pool.deposited_reward_amount)) src3
        ≤ pool.reward_amount - pool.deposited_reward_amount :=
      le_trans (min_le_left _ _) (min_le_right _ _)
    have hadd : wadd64 pool.deposited_reward_amount
        (min (min amount3
          (pool.reward_amount - pool.deposited_reward_amount)) src3)
        = pool.deposited_reward_amount +
          min (min amount3
            (pool.reward_amount - pool.deposited_reward_amount)) src3 :=
      wadd64_eq (by omega)
    rw [hadd] at hp
    constructor
    · rw [hp]
    · exact hle

/-- Witness for C9 on a concrete pool where all three handlers succeed
with exact arithmetic. -/
theorem c9_no_wrap_witness :
    (({ c9Pool with stake_acquired_amount := 30 } : Pool).stake_acquired_amount
        = c9Pool.stake_acquired_amount +
          min 20 (c9Pool.stake_target_amount - c9Pool.stake_acquired_amount) ∧
      ({ c9Pool with stake_acquired_amount := 30 } : Pool).stake_acquired_amount
        ≤ c9Pool.stake_target_amount) ∧
    (({ c9Pool with stake_acquired_amount := 6 } : Pool).stake_acquired_amount
        = c9Pool.stake_acquired_amount - min 4 c9Ticket.staked_amount ∧
      min 4 c9Ticket.staked_amount ≤ c9Pool.stake_acquired_amount ∧
      (some { c9Ticket with staked_amount := 6 } : Option Ticket)
        = (if c9Ticket.staked_amount - min 4 c9Ticket.staked_amount = 0
            then none
            else some { c9Ticket with
              staked_amount :=
                c9Ticket.staked_amount - min 4 c9Ticket.staked_amount })) ∧
    (({ c9Pool with deposited_reward_amount := 30 } : Pool).deposited_reward_amount
        = c9Pool.deposited_reward_amount +
          min (min 30
            (c9Pool.reward_amount - c9Pool.deposited_reward_amount)) 50 ∧
      ({ c9Pool with deposited_reward_amount := 30 } : Pool).deposited_reward_amount
        ≤ c9Pool.reward_amount) :=
  c9_no_wrap c9Pool c9Ticket 1 2 20 20 0 0 ⟨true, 0, 0⟩ 4 50 0
    ⟨true, 46, 0⟩ 50 30 0 ⟨true, 20, 0⟩
    { c9Pool with stake_acquired_amount := 30 } ⟨2, 1, 20, 0⟩ (some 20)
    { c9Pool with stake_acquired_amount := 6 }
    (some { c9Ticket with staked_amount := 6 }) (some 4)
    { c9Pool with deposited_reward_amount := 30 } (some 30)
    (by decide) (by decide) (by decide) (by decide) (by decide) (by decide)
    (by decide) (by decide) (by decide)

/-- C10: the transfer guard never reads the destination account balance:
its verdict is invariant under any change of the destination delta, and a
successful transfer whose source balance decreases by exactly the
requested amount passes the guard whatever happened to the
destination. -/
theorem c10_source_delta_only (amount fromBefore : Nat)
    (o : TransferOutcome) (d1 d2 : Int)
    (hb : fromBefore < U64) (hs : o.success = true)
    (hle : amount ≤ fromBefore)
    (hafter : o.fromAfter = fromBefore - amount) :
    tokenTransferMake amount fromBefore ⟨o.success, o.fromAfter, d1⟩
      = tokenTransferMake amount fromBefore ⟨o.success, o.fromAfter, d2⟩ ∧
    tokenTransferMake amount fromBefore o = .ok () := by
  constructor
  · rfl
  · have hws : wsub64 fromBefore (fromBefore - amount) = amount := by
      rw [wsub64_eq hb (Nat.sub_le _ _)]
      omega
    unfold tokenTransferMake
    rw [hs, hafter, hws]
    simp

/-- Witness for C10 on a concrete exact transfer of 5 out of 10, under
two different destination deltas. -/
theorem c10_source_delta_only_witness :
    tokenTransferMake 5 10 ⟨true, 5, 7⟩ = tokenTransferMake 5 10 ⟨true, 5, 9⟩ ∧
    tokenTransferMake 5 10 ⟨true, 5, 3⟩ = .ok () :=
  c10_source_delta_only 5 10 ⟨true, 5, 3⟩ 7 9 (by decide) rfl (by decide)
    (by decide)

end SolanaPool
